import Mathlib

/-!
Verification of the CRAITE generation core against its specification.

Shallow embedding of:
- the TypeScript facade `CRAITE` (packages/core: generate, generateWithTools,
  useTool, enhancePromptWithMode, enhancePromptWithToolResults),
- the TypeScript `BaseLLMProvider` (formatPrompt, extractCodeFromResponse),
- the Go MCP tool layer (sdks/go/mcp.go: OpenZeppelinTool, SecurityAuditTool,
  GasOptimizationTool, MCPToolRegistry).

Text is modelled as `List Char`.  JavaScript / Go string operations
(`String.prototype.match` with the fixed fence regex, `String.prototype.replace`
with a string pattern, `trim`, `strings.Contains`, map lookups) are embedded as
executable functions below, each annotated with the source location it is
translated from.
-/

namespace Craite

abbrev Str := List Char

/-- `\w` of the JS regex in extractCodeFromResponse (ASCII word character). -/
def isWordChar (c : Char) : Bool := c.isAlphanum || c == '_'

/-- Whitespace recognized by `String.prototype.trim` (the forms occurring in
this code base: space, newline, tab, carriage return). -/
def isWsChar (c : Char) : Bool := c == ' ' || c == '\n' || c == '\t' || c == '\r'

/-- Left part of `String.prototype.trim`. -/
def trimLeft (s : Str) : Str := s.dropWhile isWsChar

/-- Right part of `String.prototype.trim`. -/
def trimRight (s : Str) : Str := (s.reverse.dropWhile isWsChar).reverse

/-- JS `String.prototype.trim`. -/
def trim (s : Str) : Str := trimLeft (trimRight s)

/-- The backtick character U+0060. -/
def tickChar : Char := Char.ofNat 96

/-- The three-backtick fence marker of the regex in
`BaseLLMProvider.extractCodeFromResponse`. -/
def ticks : Str := [tickChar, tickChar, tickChar]

/-- The closing-fence marker `\n` followed by three backticks. -/
def nlTicks : Str := '\n' :: ticks

/-- `pat` is a prefix of `s` (executable). -/
def startsWith : Str → Str → Bool
  | [], _ => true
  | _ :: _, [] => false
  | p :: ps, c :: s => p == c && startsWith ps s

/-- Go `strings.Contains s pat` / JS `String.prototype.includes`. -/
def strContains : Str → Str → Bool
  | [], pat => startsWith pat []
  | c :: rest, pat => startsWith pat (c :: rest) || strContains rest pat

/-- The lazy tail of the extraction regex: split `body` at
the earliest occurrence of `nlTicks`, returning the interior before it and the
text after it. -/
def findClose : Str → Option (Str × Str)
  | [] => none
  | c :: rest =>
    if startsWith nlTicks (c :: rest) then some ([], (c :: rest).drop nlTicks.length)
    else
      match findClose rest with
      | some (i, post) => some (c :: i, post)
      | none => none

/-- After the opening marker and the greedy `[\w]*` tag run, the regex requires
a newline and then the lazy interior up to the closing marker. -/
def fenceTail (tag : Str) : Str → Option (Str × Str × Str)
  | [] => none
  | d :: body =>
    if d = '\n' then
      match findClose body with
      | some (i, post) => some (tag, i, post)
      | none => none
    else none

/-- One attempt of the fence regex (three backticks, `[\w]*`, a newline, the
lazy interior, then newline and three backticks) anchored at the start of `s`;
on success returns `(tag, interior, text after the close)`. -/
def matchFenceAt (s : Str) : Option (Str × Str × Str) :=
  if startsWith ticks s then
    fenceTail ((s.drop ticks.length).takeWhile isWordChar)
      ((s.drop ticks.length).dropWhile isWordChar)
  else none

/-- JS `response.match(regex)` without the global flag: the leftmost position
where the fence regex matches; returns `(text before the match, tag, interior,
text after the match)`. -/
def findFence : Str → Option (Str × Str × Str × Str)
  | [] =>
    match matchFenceAt [] with
    | some (t, i, post) => some ([], t, i, post)
    | none => none
  | c :: rest =>
    match matchFenceAt (c :: rest) with
    | some (t, i, post) => some ([], t, i, post)
    | none =>
      match findFence rest with
      | some (p, t, i, post) => some (c :: p, t, i, post)
      | none => none

/-- JS `s.replace(pat, '')` for a string pattern: remove the first occurrence
of `pat` from `s` (leaves `s` unchanged when `pat` does not occur). -/
def removeFirst (pat : Str) : Str → Str
  | [] => []
  | c :: rest =>
    if startsWith pat (c :: rest) then (c :: rest).drop pat.length
    else c :: removeFirst pat rest

/-- The full text matched by the fence regex for a given tag and interior:
`codeMatch[0]` of the source. -/
def mkFenceBlock (tag interior : Str) : Str :=
  ticks ++ tag ++ '\n' :: (interior ++ nlTicks)

/-- Return shape of `BaseLLMProvider.extractCodeFromResponse`. -/
structure ExtractResult where
  code : Str
  explanation : Option Str
deriving DecidableEq

/-- `BaseLLMProvider.extractCodeFromResponse`
(packages/core/src/llm-providers, base provider, lines 76-88):
match the first fenced block; on a match, `code` is the block interior and
`explanation` is the response with the matched text removed and trimmed
(absent when empty); otherwise the whole response is the code. -/
def extractCodeFromResponse (response : Str) : ExtractResult :=
  match findFence response with
  | some (_, tag, interior, _) =>
    let matched := mkFenceBlock tag interior
    let e := trim (removeFirst matched response)
    { code := interior, explanation := if e = [] then none else some e }
  | none => { code := response, explanation := none }

/-! ### TypeScript facade (packages/core/src/craite.ts and the base provider)

`temperature` and `maxTokens` of `GenerateOptions` only flow into the HTTP
payload, which is outside the modelled pure fragment; the adapter's HTTP
response text is passed in explicitly as `content` (the model covers the
successful-response path of the provider). -/

/-- JS `a || b` on an optional string field: an absent or empty string is
falsy and falls through to `b`. -/
def jsOrStr (a : Option Str) (b : Str) : Str :=
  match a with
  | some s => if s = [] then b else s
  | none => b

/-- The subset of `CRAITEConfig` the modelled fragment reads:
`config.output?.style`. -/
structure CRAITEConfig where
  outputStyle : Option Str
deriving DecidableEq

/-- `GenerateOptions` of packages/core/src/types.ts (modelled fields). -/
structure GenerateOptions where
  prompt : Str
  language : Option Str
  mode : Option Str
deriving DecidableEq

/-- `GenerateResult` of packages/core/src/types.ts. -/
structure GenerateResult where
  code : Str
  language : Str
  explanation : Option Str
  toolsUsed : List Str
deriving DecidableEq

/-- The result object an MCP tool's `execute` resolves to, as read by
`generateWithTools` / `enhancePromptWithToolResults` (`result.success`,
`result.tool`, `result.data`).  `data` stands for the `JSON.stringify`d
payload; `tool` is `undefined` when the field is missing. -/
structure ToolResultTS where
  tool : Option Str
  success : Bool
  data : Str
  error : Option Str
deriving DecidableEq

/-- `MCPTool` of packages/core/src/types.ts.  `execute` takes the params
object (string-valued fields) and resolves to a result object or to
`null`/`undefined` (`none`). -/
structure MCPToolTS where
  name : Str
  description : Str
  execute : List (Str × Str) → Option ToolResultTS

/-- `Map.prototype.get` on the facade's `mcpTools` map (association list). -/
def mapGet : List (Str × MCPToolTS) → Str → Option MCPToolTS
  | [], _ => none
  | (k, t) :: rest, key => if k = key then some t else mapGet rest key

/-- `${x}` interpolation of an optional string: JS renders `undefined`. -/
def showOpt (o : Option Str) : Str := o.getD ("undefined".toList)

/-- The facade's mode instruction table (craite.ts, enhancePromptWithMode). -/
def facadeProductionInstr : Str :=
  ("Generate production-ready code with minimal comments. Focus on efficiency and best practices.").toList

/-- Educational entry of the facade's mode instruction table. -/
def facadeEducationalInstr : Str :=
  ("Generate code with detailed explanations, comments, and step-by-step guidance for learning.").toList

/-- `modeInstructions[mode as keyof typeof modeInstructions]` lookup. -/
def modeInstructionsLookup (mode : Str) : Option Str :=
  if mode = ("production").toList then some facadeProductionInstr
  else if mode = ("educational").toList then some facadeEducationalInstr
  else none

namespace CRAITE

/-- `CRAITE.enhancePromptWithMode` (craite.ts lines 115-122):
the instruction for the mode, or the empty string for an unrecognized mode,
followed by a blank line and the prompt. -/
def enhancePromptWithMode (prompt mode : Str) : Str :=
  ((modeInstructionsLookup mode).getD []) ++ ("\n\n").toList ++ prompt

end CRAITE

/-- `BaseLLMProvider.buildSystemPrompt` (base provider; the template literal
keeps its source-level indentation and the trailing space on the first line). -/
def buildSystemPrompt : Str :=
  ("You are CRAITE, an elite Web3 code generator and AI development assistant. \n    You specialize in blockchain development, smart contracts, dApps, DeFi protocols, and NFTs.\n    Generate production-ready, secure, and optimized code following best practices.").toList

/-- The provider-level educational instruction (base provider, formatPrompt). -/
def providerEducationalInstr : Str :=
  ("Provide detailed explanations and comments to help the user learn.").toList

/-- The provider-level production instruction (base provider, formatPrompt). -/
def providerProductionInstr : Str :=
  ("Generate clean, production-ready code with minimal but essential comments.").toList

/-- `BaseLLMProvider.formatPrompt` (base provider lines 68-74): system prompt,
then the educational instruction when `mode === 'educational'` and the
production instruction otherwise, then the user prompt. -/
def formatPrompt (userPrompt mode : Str) : Str :=
  let modeInstructions :=
    if mode = ("educational").toList then providerEducationalInstr
    else providerProductionInstr
  buildSystemPrompt ++ ("\n\n").toList ++ modeInstructions ++
    ("\n\nUser request: ").toList ++ userPrompt

/-- Modelled from the spec: the composition of 4.2 "with the mode instruction
omitted", i.e. the provider template with an empty instruction slot.  Used
only to compare the code's behavior with the spec's words. -/
def formatPromptOmittedInstr (userPrompt : Str) : Str :=
  buildSystemPrompt ++ ("\n\n").toList ++ ([] : Str) ++
    ("\n\nUser request: ").toList ++ userPrompt

namespace CRAITE

/-- Mode resolution of `CRAITE.generate`:
`options.mode || this.config.output?.style || 'production'`. -/
def resolveMode (cfg : CRAITEConfig) (opts : GenerateOptions) : Str :=
  jsOrStr opts.mode (jsOrStr cfg.outputStyle (("production").toList))

/-- `CRAITE.generate` (craite.ts lines 47-66), given the adapter's successful
HTTP response text `content`: resolve the mode, extract code/explanation from
the content, clear the explanation unless the mode is educational, default the
language to javascript. -/
def generate (cfg : CRAITEConfig) (opts : GenerateOptions) (content : Str) :
    GenerateResult :=
  let mode := resolveMode cfg opts
  let res := extractCodeFromResponse content
  { code := res.code
    language := jsOrStr opts.language (("javascript").toList)
    explanation := if mode = ("educational").toList then res.explanation else none
    toolsUsed := [] }

/-- The text `CRAITE.generate` hands to the provider's HTTP POST: the
provider's `formatPrompt` applied to the facade's mode-enhanced prompt, with
the provider-side mode `options.mode || 'production'`. -/
def outboundPrompt (cfg : CRAITEConfig) (opts : GenerateOptions) : Str :=
  formatPrompt (enhancePromptWithMode opts.prompt (resolveMode cfg opts))
    (jsOrStr opts.mode (("production").toList))

/-- `CRAITE.useTool` (craite.ts lines 102-109): throws (`Except.error`) when
the name is not in the map, otherwise runs the tool's `execute`. -/
def useTool (tools : List (Str × MCPToolTS)) (toolName : Str)
    (params : List (Str × Str)) : Except Str (Option ToolResultTS) :=
  match mapGet tools toolName with
  | none => .error (("MCP tool not found: ").toList ++ toolName)
  | some tool => .ok (tool.execute params)

/-- The tool loop of `CRAITE.generateWithTools` (craite.ts lines 72-82):
for each requested name, skip it when not registered; otherwise call
`useTool` with `{query: prompt}` and record name and result when the result
is truthy. -/
def runTools (tools : List (Str × MCPToolTS)) (prompt : Str) :
    List Str → Except Str (List Str × List ToolResultTS)
  | [] => .ok ([], [])
  | n :: rest =>
    match mapGet tools n with
    | none => runTools tools prompt rest
    | some _ =>
      match useTool tools n [(("query").toList, prompt)] with
      | .error e => .error e
      | .ok res =>
        match runTools tools prompt rest with
        | .error e => .error e
        | .ok (used, results) =>
          match res with
          | some r => .ok (n :: used, r :: results)
          | none => .ok (used, results)

/-- `CRAITE.enhancePromptWithToolResults` (craite.ts lines 124-132). -/
def enhancePromptWithToolResults (prompt : Str) (toolResults : List ToolResultTS) :
    Str :=
  if toolResults = [] then prompt
  else
    let context := List.intercalate (("\n\n").toList)
      (toolResults.map fun r =>
        ("Tool: ").toList ++ showOpt r.tool ++ ("\nResult: ").toList ++ r.data)
    prompt ++ ("\n\nAdditional context from MCP tools:\n").toList ++ context

/-- `CRAITE.generateWithTools` (craite.ts lines 68-100), given the adapter's
successful HTTP response text `content`: run the requested tools, enhance the
prompt with their results, generate, and override `toolsUsed` with the names
recorded by the loop. -/
def generateWithTools (cfg : CRAITEConfig) (tools : List (Str × MCPToolTS))
    (opts : GenerateOptions) (toolNames : List Str) (content : Str) :
    Except Str GenerateResult :=
  match runTools tools opts.prompt toolNames with
  | .error e => .error e
  | .ok (used, results) =>
    let enhancedPrompt := enhancePromptWithToolResults opts.prompt results
    let r := generate cfg { opts with prompt := enhancedPrompt } content
    .ok { r with toolsUsed := used }

end CRAITE

/-! ### Go MCP tool layer (sdks/go/mcp.go)

Parameters arrive as `map[string]interface{}`; the code reads them with type
assertions `params[k].(string)` / `params[k].([]string)` that yield the zero
value on a missing key or a wrong dynamic type.  `GoVal` models the dynamic
values that matter: a string, a string slice, or anything else. -/

/-- A dynamic parameter value as seen by the Go type assertions. -/
inductive GoVal where
  | str (s : Str)
  | strList (l : List Str)
  | other
deriving DecidableEq

/-- The `params map[string]interface{}` argument, as an association list. -/
abbrev GoParams := List (Str × GoVal)

/-- Map lookup on `GoParams`. -/
def lookupVal : GoParams → Str → Option GoVal
  | [], _ => none
  | (k, v) :: rest, key => if k = key then some v else lookupVal rest key

/-- `s, _ := params[key].(string)`: the string value, or `""` when the key is
absent or the value is not a string. -/
def getStr (params : GoParams) (key : Str) : Str :=
  match lookupVal params key with
  | some (.str s) => s
  | _ => []

/-- `l, _ := params[key].([]string)`: the slice, or `nil` when the key is
absent or the value is not a `[]string`. -/
def getStrList (params : GoParams) (key : Str) : List Str :=
  match lookupVal params key with
  | some (.strList l) => l
  | _ => []

/-- One entry of the security tool's `issues` list (keys `type`, `severity`,
`message`). -/
structure SecurityIssue where
  issueType : Str
  severity : Str
  message : Str
deriving DecidableEq

/-- One entry of the gas tool's `suggestions` list. -/
structure GasSuggestion where
  suggestionType : Str
  suggestion : Str
  impact : Str
  gasSaved : Str
deriving DecidableEq

/-- The `Data` payload of an `MCPToolResult`, one shape per tool. -/
inductive GoData where
  | ozData (contractType : Str) (imports : List Str) (features : List Str)
      (template : Str) (documentation : Str)
  | auditData (issues : List SecurityIssue) (score : Int)
      (recommendations : List Str)
  | gasData (suggestions : List GasSuggestion) (estimatedTotalSavings : Str)
      (optimizationScore : Int)
deriving DecidableEq

/-- `MCPToolResult` of mcp.go (`Data` is `nil`/`none` on the failure paths;
`Error` defaults to the empty string). -/
structure MCPToolResult where
  success : Bool
  data : Option GoData
  error : Str
deriving DecidableEq

/-- `contractTemplate` of mcp.go. -/
structure ContractTemplate where
  base : Str
  features : List Str
  template : Str
deriving DecidableEq

/-- The ERC20 template literal registered by `NewOpenZeppelinTool`. -/
def erc20Template : ContractTemplate where
  base := ("@openzeppelin/contracts/token/ERC20/ERC20.sol").toList
  features := [("Mintable").toList, ("Burnable").toList, ("Pausable").toList,
    ("Snapshot").toList, ("Permit").toList]
  template :=
    ("pragma solidity ^0.8.0;\n\nimport \"\x7bbase\x7d\";\n\x7bimports\x7d\n\ncontract \x7bname\x7d is ERC20\x7bfeatures\x7d \x7b\n    constructor() ERC20(\"\x7btoken_name\x7d\", \"\x7bsymbol\x7d\") \x7b\n        \x7bconstructor_body\x7d\n    \x7d\n    \n    \x7bfunctions\x7d\n\x7d").toList

/-- The ERC721 template registered by `NewOpenZeppelinTool`. -/
def erc721Template : ContractTemplate where
  base := ("@openzeppelin/contracts/token/ERC721/ERC721.sol").toList
  features := [("Enumerable").toList, ("URIStorage").toList,
    ("Burnable").toList, ("Pausable").toList]
  template := ("// ERC721 template").toList

/-- The ERC1155 template registered by `NewOpenZeppelinTool`. -/
def erc1155Template : ContractTemplate where
  base := ("@openzeppelin/contracts/token/ERC1155/ERC1155.sol").toList
  features := [("Supply").toList, ("Burnable").toList, ("Pausable").toList,
    ("URIStorage").toList]
  template := ("// ERC1155 template").toList

/-- The `contracts` map built by `NewOpenZeppelinTool`, as a lookup. -/
def ozContracts (kind : Str) : Option ContractTemplate :=
  if kind = ("ERC20").toList then some erc20Template
  else if kind = ("ERC721").toList then some erc721Template
  else if kind = ("ERC1155").toList then some erc1155Template
  else none

/-- The Go helper `contains(slice, item)` of mcp.go. -/
def goContains (slice : List Str) (item : Str) : Bool :=
  slice.any fun s => s = item

/-- The base import line `import "<base>";`. -/
def ozBaseImport (base : Str) : Str :=
  ("import \"").toList ++ base ++ ("\";").toList

/-- The per-feature import line
`import "@openzeppelin/contracts/token/<ct>/extensions/<ct><feature>.sol";`. -/
def ozFeatureImport (contractType feature : Str) : Str :=
  ("import \"@openzeppelin/contracts/token/").toList ++ contractType ++
    ("/extensions/").toList ++ contractType ++ feature ++ (".sol\";").toList

/-- The feature loop of `OpenZeppelinTool.Execute`: keep requested features
recognized for the template (in request order) and build their import lines. -/
def ozBuild (templateFeatures : List Str) (contractType : Str) :
    List Str → List Str × List Str
  | [] => ([], [])
  | f :: rest =>
    let (im, vf) := ozBuild templateFeatures contractType rest
    if goContains templateFeatures f then
      (ozFeatureImport contractType f :: im, f :: vf)
    else (im, vf)

/-- ASCII `strings.ToLower`. -/
def toLowerStr (s : Str) : Str := s.map Char.toLower

/-- The documentation URL in the OpenZeppelin tool's result data. -/
def ozDocUrl (contractType : Str) : Str :=
  ("https://docs.openzeppelin.com/contracts/4.x/api/token/").toList ++
    toLowerStr contractType

namespace OpenZeppelinTool

/-- `OpenZeppelinTool.Execute` (mcp.go lines 79-119): default the contract
type to ERC20 when the parameter is missing/empty/not a string, fail on an
unknown type, otherwise return the template with the recognized features and
their imports. -/
def Execute (params : GoParams) : MCPToolResult :=
  let ct0 := getStr params (("contract_type").toList)
  let contractType := if ct0 = [] then ("ERC20").toList else ct0
  let features := getStrList params (("features").toList)
  match ozContracts contractType with
  | none =>
    { success := false, data := none
      error := ("Unknown contract type: ").toList ++ contractType }
  | some template =>
    let built := ozBuild template.features contractType features
    { success := true
      data := some (.ozData contractType (ozBaseImport template.base :: built.1)
        built.2 template.template (ozDocUrl contractType))
      error := [] }

end OpenZeppelinTool

/-- The reentrancy finding of the security tool. -/
def reentrancyIssue : SecurityIssue where
  issueType := ("reentrancy").toList
  severity := ("high").toList
  message := ("Potential reentrancy vulnerability detected").toList

/-- The tx.origin finding of the security tool. -/
def accessControlIssue : SecurityIssue where
  issueType := ("access_control").toList
  severity := ("medium").toList
  message := ("tx.origin used for authentication").toList

/-- The block.timestamp finding of the security tool. -/
def timestampIssue : SecurityIssue where
  issueType := ("timestamp_dependence").toList
  severity := ("low").toList
  message := ("Block timestamp used, can be manipulated by miners").toList

/-- The delegatecall finding of the security tool. -/
def delegatecallIssue : SecurityIssue where
  issueType := ("delegatecall").toList
  severity := ("high").toList
  message := ("Delegatecall usage detected, ensure target is trusted").toList

/-- The substring checks of `SecurityAuditTool.Execute`, in source order;
empty for any language other than solidity. -/
def auditIssues (code language : Str) : List SecurityIssue :=
  if language = ("solidity").toList then
    (if strContains code (("call.value").toList)
        || strContains code ((".call\x7bvalue:").toList)
     then [reentrancyIssue] else []) ++
    (if strContains code (("tx.origin").toList) then [accessControlIssue] else []) ++
    (if strContains code (("block.timestamp").toList) then [timestampIssue] else []) ++
    (if strContains code (("delegatecall").toList) then [delegatecallIssue] else [])
  else []

/-- `getSecurityRecommendations` of mcp.go. -/
def getSecurityRecommendations : List SecurityIssue → List Str
  | [] => []
  | issue :: rest =>
    let tail := getSecurityRecommendations rest
    if issue.issueType = ("reentrancy").toList then
      ("Use checks-effects-interactions pattern or ReentrancyGuard").toList :: tail
    else if issue.issueType = ("access_control").toList then
      ("Use msg.sender for authentication instead of tx.origin").toList :: tail
    else if issue.issueType = ("timestamp_dependence").toList then
      ("Avoid using block.timestamp for critical logic").toList :: tail
    else if issue.issueType = ("delegatecall").toList then
      ("Ensure delegatecall targets are trusted and immutable").toList :: tail
    else tail

namespace SecurityAuditTool

/-- `SecurityAuditTool.Execute` (mcp.go lines 136-193): default the language
to solidity, collect the substring findings, clamp the score
`100 - 20*len(issues)` at zero, always succeed. -/
def Execute (params : GoParams) : MCPToolResult :=
  let code := getStr params (("code").toList)
  let language0 := getStr params (("language").toList)
  let language := if language0 = [] then ("solidity").toList else language0
  let issues := auditIssues code language
  let score0 : Int := 100 - 20 * issues.length
  let score := if score0 < 0 then 0 else score0
  { success := true
    data := some (.auditData issues score (getSecurityRecommendations issues))
    error := [] }

end SecurityAuditTool

namespace GasOptimizationTool

/-- `GasOptimizationTool.Execute` (mcp.go lines 196-263): substring-based gas
suggestions, estimated savings `1000` per suggestion, optimization score
`100 - 10*len(suggestions)` clamped at zero, always succeeds. -/
def Execute (params : GoParams) : MCPToolResult :=
  let code := getStr params (("code").toList)
  let suggestions :=
    (if strContains code (("string ").toList)
        && !strContains code (("string memory").toList) then
      [{ suggestionType := ("storage").toList
         suggestion := ("Consider using bytes32 for fixed-length strings").toList
         impact := ("high").toList
         gasSaved := ("~2000 per storage slot").toList : GasSuggestion }] else []) ++
    (if strContains code (("for (").toList)
        && strContains code ((".length").toList) then
      [{ suggestionType := ("loops").toList
         suggestion := ("Cache array length outside the loop").toList
         impact := ("medium").toList
         gasSaved := ("~100 per iteration").toList : GasSuggestion }] else []) ++
    (if strContains code (("i++").toList) then
      [{ suggestionType := ("loops").toList
         suggestion := ("Use ++i instead of i++ in loops").toList
         impact := ("low").toList
         gasSaved := ("~5 per iteration").toList : GasSuggestion }] else []) ++
    (if strContains code (("public").toList)
        && !strContains code (("external").toList) then
      [{ suggestionType := ("functions").toList
         suggestion := ("Use external instead of public for functions not called internally").toList
         impact := ("medium").toList
         gasSaved := ("~200 per call").toList : GasSuggestion }] else []) ++
    (if strContains code (("storage").toList)
        && strContains code (("=").toList) then
      [{ suggestionType := ("storage").toList
         suggestion := ("Minimize storage writes, batch updates when possible").toList
         impact := ("high").toList
         gasSaved := ("~5000-20000 per storage slot").toList : GasSuggestion }] else [])
  let estimatedSavings := suggestions.length * 1000
  let score0 : Int := 100 - 10 * suggestions.length
  let score := if score0 < 0 then 0 else score0
  { success := true
    data := some (.gasData suggestions
      ((toString estimatedSavings).toList ++ (" gas").toList) score)
    error := [] }

end GasOptimizationTool

/-- A registered Go tool: the part of the `MCPTool` interface the registry
uses (`Name`, `Description`, `Execute`). -/
structure GoTool where
  name : Str
  description : Str
  execute : GoParams → MCPToolResult

/-- The registry's `tools` map, as an association list. -/
abbrev GoRegistry := List (Str × GoTool)

namespace MCPToolRegistry

/-- `MCPToolRegistry.Get`. -/
def Get : GoRegistry → Str → Option GoTool
  | [], _ => none
  | (k, t) :: rest, key => if k = key then some t else Get rest key

/-- `MCPToolRegistry.Execute` (mcp.go lines 313-323): a failure result (not a
panic) for an unknown name, otherwise delegate to the tool. -/
def Execute (registry : GoRegistry) (toolName : Str) (params : GoParams) :
    MCPToolResult :=
  match Get registry toolName with
  | none =>
    { success := false, data := none
      error := ("Tool not found: ").toList ++ toolName }
  | some tool => tool.execute params

end MCPToolRegistry

/-! ### Concrete inputs used by witnesses and counterexamples -/

/-- A configuration with no `output.style` default. -/
def cfgDefault : CRAITEConfig := { outputStyle := none }

/-- A plain request with no language and no mode. -/
def optsPlain : GenerateOptions :=
  { prompt := ("p").toList, language := none, mode := none }

/-- A registered tool whose `execute` resolves to a result with
`success = false` (the payload stands for a stringified empty object). -/
def failingAuditTool : MCPToolTS where
  name := ("audit").toList
  description := ("a tool that reports failure").toList
  execute := fun _ =>
    some { tool := some ("audit").toList, success := false,
           data := ("\x7b\x7d").toList, error := some ("boom").toList }

/-- A registered tool whose `execute` resolves to a successful result. -/
def okTemplateTool : MCPToolTS where
  name := ("oz").toList
  description := ("a tool that succeeds").toList
  execute := fun _ =>
    some { tool := some ("oz").toList, success := true,
           data := ("\x7b\x7d").toList, error := none }

end Craite

namespace Craite

/-! ### String lemmas -/

lemma startsWith_iff (p : Str) : ∀ s : Str, startsWith p s = true ↔ ∃ t, s = p ++ t := by
  induction p with
  | nil =>
    intro s
    simp [startsWith]
  | cons a ps ih =>
    intro s
    cases s with
    | nil =>
      simp [startsWith]
    | cons c s' =>
      simp only [startsWith, Bool.and_eq_true, beq_iff_eq, List.cons_append]
      constructor
      · rintro ⟨rfl, h⟩
        obtain ⟨t, rfl⟩ := (ih s').1 h
        exact ⟨t, rfl⟩
      · rintro ⟨t, ht⟩
        injection ht with h1 h2
        exact ⟨h1.symm, (ih s').2 ⟨t, h2⟩⟩

lemma startsWith_self_append (p t : Str) : startsWith p (p ++ t) = true :=
  (startsWith_iff p (p ++ t)).2 ⟨t, rfl⟩

lemma strContains_of_startsWith (u w pat : Str) (h : startsWith pat w = true) :
    strContains (u ++ w) pat = true := by
  induction u with
  | nil =>
    cases w with
    | nil => simpa [strContains] using h
    | cons c r => simp [strContains, h]
  | cons c u' ih =>
    simp [strContains, ih]

lemma takeWhile_all_append (p : Char → Bool) (t : Str) (d : Char) (r : Str)
    (h1 : ∀ c ∈ t, p c = true) (h2 : p d = false) :
    (t ++ d :: r).takeWhile p = t := by
  induction t with
  | nil => simp [List.takeWhile_cons, h2]
  | cons a t' ih =>
    have ha : p a = true := h1 a (by simp)
    have ih' := ih fun c hc => h1 c (by simp [hc])
    simp [List.takeWhile_cons, ha, ih']

lemma dropWhile_all_append (p : Char → Bool) (t : Str) (d : Char) (r : Str)
    (h1 : ∀ c ∈ t, p c = true) (h2 : p d = false) :
    (t ++ d :: r).dropWhile p = d :: r := by
  induction t with
  | nil => simp [List.dropWhile_cons, h2]
  | cons a t' ih =>
    have ha : p a = true := h1 a (by simp)
    have ih' := ih fun c hc => h1 c (by simp [hc])
    simp [List.dropWhile_cons, ha, ih']

lemma mem_takeWhile_word (p : Char → Bool) : ∀ (l : Str) (c : Char),
    c ∈ l.takeWhile p → p c = true := by
  intro l
  induction l with
  | nil => intro c hc; simp [List.takeWhile] at hc
  | cons a l' ih =>
    intro c hc
    by_cases ha : p a = true
    · rw [List.takeWhile_cons, if_pos ha] at hc
      rcases List.mem_cons.1 hc with rfl | hc'
      · exact ha
      · exact ih c hc'
    · rw [List.takeWhile_cons, if_neg (by simpa using ha)] at hc
      simp at hc

/-! ### Fence-matching lemmas -/

lemma findClose_spec : ∀ (body i post : Str),
    findClose body = some (i, post) →
    body = i ++ nlTicks ++ post ∧
    ∀ q < i.length, startsWith nlTicks (body.drop q) = false := by
  intro body
  induction body with
  | nil =>
    intro i post h
    simp [findClose] at h
  | cons c rest ih =>
    intro i post h
    by_cases hsw : startsWith nlTicks (c :: rest) = true
    · rw [findClose, if_pos hsw] at h
      obtain ⟨t, ht⟩ := (startsWith_iff _ _).1 hsw
      have hdrop : (c :: rest).drop nlTicks.length = t := by
        rw [ht]; exact List.drop_left _ _
      rw [hdrop] at h
      simp only [Option.some.injEq, Prod.mk.injEq] at h
      obtain ⟨rfl, rfl⟩ := h
      refine ⟨by simpa using ht, ?_⟩
      intro q hq
      simp at hq
    · rw [findClose, if_neg (by simpa using hsw)] at h
      cases hfc : findClose rest with
      | none => rw [hfc] at h; simp at h
      | some ip =>
        obtain ⟨i', post'⟩ := ip
        rw [hfc] at h
        simp only [Option.some.injEq, Prod.mk.injEq] at h
        obtain ⟨rfl, rfl⟩ := h
        obtain ⟨hb, hmin⟩ := ih i' post' hfc
        refine ⟨by simp [hb], ?_⟩
        intro q hq
        cases q with
        | zero => simpa using (by simpa using hsw : startsWith nlTicks (c :: rest) = false)
        | succ q' =>
          have hq' : q' < i'.length := by simpa using hq
          simpa using hmin q' hq'

lemma findClose_total : ∀ (i x : Str), (findClose (i ++ nlTicks ++ x)).isSome = true := by
  intro i
  induction i with
  | nil =>
    intro x
    have hsw : startsWith nlTicks (([] : Str) ++ nlTicks ++ x) = true := by
      simpa using startsWith_self_append nlTicks x
    have hshape : ([] : Str) ++ nlTicks ++ x = '\n' :: (ticks ++ x) := by
      simp [nlTicks]
    rw [hshape] at hsw ⊢
    rw [findClose, if_pos hsw]
    simp
  | cons c i' ih =>
    intro x
    have hshape : (c :: i') ++ nlTicks ++ x = c :: (i' ++ nlTicks ++ x) := by simp
    rw [hshape]
    rw [findClose]
    by_cases hsw : startsWith nlTicks (c :: (i' ++ nlTicks ++ x)) = true
    · rw [if_pos hsw]; simp
    · rw [if_neg (by simpa using hsw)]
      have := ih x
      cases hfc : findClose (i' ++ nlTicks ++ x) with
      | none => rw [hfc] at this; simp at this
      | some ip => simp

lemma matchFenceAt_nil : matchFenceAt [] = none := by decide

lemma isWordChar_nl : isWordChar '\n' = false := by decide

lemma matchFenceAt_spec (s tag interior post : Str)
    (h : matchFenceAt s = some (tag, interior, post)) :
    s = mkFenceBlock tag interior ++ post ∧ ∀ c ∈ tag, isWordChar c = true := by
  unfold matchFenceAt at h
  by_cases hsw : startsWith ticks s = true
  · rw [if_pos hsw] at h
    obtain ⟨t0, ht0⟩ := (startsWith_iff _ _).1 hsw
    have hdrop : s.drop ticks.length = t0 := by
      rw [ht0]; exact List.drop_left _ _
    rw [hdrop] at h
    cases hdw : t0.dropWhile isWordChar with
    | nil => rw [hdw] at h; simp [fenceTail] at h
    | cons d body =>
      rw [hdw] at h
      rw [fenceTail] at h
      by_cases hd : d = '\n'
      · rw [if_pos hd] at h
        subst hd
        cases hfc : findClose body with
        | none => rw [hfc] at h; simp at h
        | some ip =>
          obtain ⟨i', post'⟩ := ip
          rw [hfc] at h
          simp only [Option.some.injEq, Prod.mk.injEq] at h
          obtain ⟨rfl, rfl, rfl⟩ := h
          obtain ⟨hbody, _⟩ := findClose_spec body i' post' hfc
          have hsplit : t0 = t0.takeWhile isWordChar ++ ('\n' :: body) := by
            conv_lhs => rw [← List.takeWhile_append_dropWhile (p := isWordChar) (l := t0)]
            rw [hdw]
          have hwchars : ∀ c ∈ t0.takeWhile isWordChar, isWordChar c = true :=
            fun c hc => mem_takeWhile_word isWordChar t0 c hc
          refine ⟨?_, hwchars⟩
          rw [ht0]
          conv_lhs => rw [hsplit, hbody]
          simp [mkFenceBlock, List.append_assoc]
      · rw [if_neg hd] at h
        simp at h
  · rw [if_neg (by simpa using hsw)] at h
    simp at h

lemma matchFenceAt_append (tag interior x : Str)
    (hw : ∀ c ∈ tag, isWordChar c = true) :
    matchFenceAt (mkFenceBlock tag interior ++ x) ≠ none := by
  have hshape : mkFenceBlock tag interior ++ x
      = ticks ++ (tag ++ '\n' :: (interior ++ nlTicks ++ x)) := by
    simp [mkFenceBlock, List.append_assoc]
  rw [hshape]
  unfold matchFenceAt
  rw [if_pos (startsWith_self_append _ _)]
  rw [List.drop_left]
  rw [dropWhile_all_append isWordChar tag '\n' _ hw isWordChar_nl]
  rw [fenceTail, if_pos rfl]
  have htot := findClose_total interior x
  cases hfc : findClose (interior ++ nlTicks ++ x) with
  | none => rw [hfc] at htot; simp at htot
  | some ip => simp

lemma findFence_spec : ∀ (s p t i post : Str),
    findFence s = some (p, t, i, post) →
    s = p ++ mkFenceBlock t i ++ post ∧
    (∀ c ∈ t, isWordChar c = true) ∧
    ∀ q < p.length, matchFenceAt (s.drop q) = none := by
  intro s
  induction s with
  | nil =>
    intro p t i post h
    rw [findFence, matchFenceAt_nil] at h
    simp at h
  | cons c rest ih =>
    intro p t i post h
    cases hma : matchFenceAt (c :: rest) with
    | some tri =>
      obtain ⟨t', i', post'⟩ := tri
      rw [findFence, hma] at h
      simp only [Option.some.injEq, Prod.mk.injEq] at h
      obtain ⟨rfl, rfl, rfl, rfl⟩ := h
      obtain ⟨hs, hw⟩ := matchFenceAt_spec _ _ _ _ hma
      refine ⟨by simpa using hs, hw, ?_⟩
      intro q hq
      simp at hq
    | none =>
      rw [findFence, hma] at h
      cases hff : findFence rest with
      | none => rw [hff] at h; simp at h
      | some quad =>
        obtain ⟨p', t', i', post'⟩ := quad
        rw [hff] at h
        simp only [Option.some.injEq, Prod.mk.injEq] at h
        obtain ⟨rfl, rfl, rfl, rfl⟩ := h
        obtain ⟨hs, hw, hmin⟩ := ih p' t' i' post' hff
        refine ⟨by simp [hs], hw, ?_⟩
        intro q hq
        cases q with
        | zero => simpa using hma
        | succ q' =>
          have hq' : q' < p'.length := by simpa using hq
          simpa using hmin q' hq'

lemma removeFirst_at : ∀ (pre pat post : Str), pat ≠ [] →
    (∀ q < pre.length, startsWith pat ((pre ++ pat ++ post).drop q) = false) →
    removeFirst pat (pre ++ pat ++ post) = pre ++ post := by
  intro pre
  induction pre with
  | nil =>
    intro pat post hne _
    cases hp : pat with
    | nil => exact absurd hp hne
    | cons a pa =>
      subst hp
      have hshape : (([] : Str) ++ (a :: pa) ++ post) = a :: (pa ++ post) := by simp
      rw [hshape, removeFirst]
      have hsw : startsWith (a :: pa) (a :: (pa ++ post)) = true := by
        simpa using startsWith_self_append (a :: pa) post
      rw [if_pos hsw]
      have := List.drop_left (a :: pa) post
      simp [this]
  | cons c pre' ih =>
    intro pat post hne hmin
    have h0 : startsWith pat ((c :: pre') ++ pat ++ post) = false := by
      simpa using hmin 0 (by simp)
    have hshape : ((c :: pre') ++ pat ++ post) = c :: (pre' ++ pat ++ post) := by simp
    rw [hshape] at h0 ⊢
    have h0' : startsWith pat (c :: (pre' ++ (pat ++ post))) = false := by
      simpa [List.append_assoc] using h0
    rw [removeFirst, if_neg (by simp [h0'])]
    have hmin' : ∀ q < pre'.length,
        startsWith pat ((pre' ++ pat ++ post).drop q) = false := by
      intro q hq
      have := hmin (q + 1) (by simpa using Nat.succ_lt_succ hq)
      rw [hshape] at this
      simpa using this
    rw [ih pat post hne hmin']
    simp

lemma extract_found (response p t i post : Str)
    (h : findFence response = some (p, t, i, post)) :
    extractCodeFromResponse response =
      { code := i
        explanation := if trim (p ++ post) = [] then none
                       else some (trim (p ++ post)) } := by
  obtain ⟨hs, hw, hmin⟩ := findFence_spec response p t i post h
  have hne : mkFenceBlock t i ≠ [] := by simp [mkFenceBlock, ticks]
  have hocc : ∀ q < p.length,
      startsWith (mkFenceBlock t i) (response.drop q) = false := by
    intro q hq
    by_contra hcon
    have hswq : startsWith (mkFenceBlock t i) (response.drop q) = true := by
      cases hx : startsWith (mkFenceBlock t i) (response.drop q) with
      | false => exact absurd hx hcon
      | true => rfl
    obtain ⟨x, hx⟩ := (startsWith_iff _ _).1 hswq
    have hnone := hmin q hq
    rw [hx] at hnone
    exact matchFenceAt_append t i x hw hnone
  have hrm : removeFirst (mkFenceBlock t i) response = p ++ post := by
    conv_lhs => rw [hs]
    refine removeFirst_at p _ post hne ?_
    intro q hq
    rw [← hs]
    exact hocc q hq
  simp only [extractCodeFromResponse, h, hrm]

lemma extract_notfound (response : Str) (h : findFence response = none) :
    extractCodeFromResponse response = { code := response, explanation := none } := by
  simp only [extractCodeFromResponse, h]

/-! ### Trimming preserves an inner block with non-whitespace endpoints -/

lemma trimLeft_keeps (hb : Char) (h : isWsChar hb = false) :
    ∀ (u rest : Str), ∃ u', trimLeft (u ++ hb :: rest) = u' ++ hb :: rest := by
  intro u
  induction u with
  | nil =>
    intro rest
    exact ⟨[], by simp [trimLeft, List.dropWhile_cons, h]⟩
  | cons c u2 ih =>
    intro rest
    by_cases hc : isWsChar c = true
    · obtain ⟨u', hu'⟩ := ih rest
      refine ⟨u', ?_⟩
      simpa [trimLeft, List.dropWhile_cons, hc] using hu'
    · refine ⟨c :: u2, ?_⟩
      simp [trimLeft, List.dropWhile_cons, hc]

lemma trim_keeps (b : Str) (hb hl : Char) (b1 b2 : Str)
    (hhead : b = hb :: b1) (hlast : b = b2 ++ [hl])
    (h1 : isWsChar hb = false) (h2 : isWsChar hl = false) :
    ∀ (u v : Str), ∃ u' v', trim (u ++ b ++ v) = u' ++ b ++ v' := by
  intro u v
  have hrev : (u ++ b ++ v).reverse = v.reverse ++ hl :: (b2.reverse ++ u.reverse) := by
    rw [hlast]
    simp [List.reverse_append, List.append_assoc]
  obtain ⟨w, hw⟩ := trimLeft_keeps hl h2 v.reverse (b2.reverse ++ u.reverse)
  have htr : trimRight (u ++ b ++ v) = u ++ b ++ w.reverse := by
    unfold trimRight
    rw [hrev]
    show (trimLeft (v.reverse ++ hl :: (b2.reverse ++ u.reverse))).reverse = _
    rw [hw]
    rw [hlast]
    simp [List.reverse_append, List.append_assoc]
  obtain ⟨u', hu'⟩ := trimLeft_keeps hb h1 u (b1 ++ w.reverse)
  refine ⟨u', w.reverse, ?_⟩
  unfold trim
  rw [htr, hhead]
  have hshape : u ++ (hb :: b1) ++ w.reverse = u ++ hb :: (b1 ++ w.reverse) := by
    simp
  rw [hshape, hu']
  simp

lemma mkFenceBlock_cons (t i : Str) :
    mkFenceBlock t i = tickChar :: ([tickChar, tickChar] ++ t ++ '\n' :: (i ++ nlTicks)) := by
  simp [mkFenceBlock, ticks]

lemma mkFenceBlock_concat (t i : Str) :
    mkFenceBlock t i
      = (ticks ++ t ++ '\n' :: (i ++ ['\n', tickChar, tickChar])) ++ [tickChar] := by
  simp [mkFenceBlock, nlTicks, ticks, List.append_assoc]

lemma isWsChar_tick : isWsChar tickChar = false := by decide

lemma trim_keeps_fence (t' i' : Str) (u v : Str) :
    ∃ u' v', trim (u ++ mkFenceBlock t' i' ++ v) = u' ++ mkFenceBlock t' i' ++ v' :=
  trim_keeps (mkFenceBlock t' i') tickChar tickChar
    ([tickChar, tickChar] ++ t' ++ '\n' :: (i' ++ nlTicks))
    (ticks ++ t' ++ '\n' :: (i' ++ ['\n', tickChar, tickChar]))
    (mkFenceBlock_cons t' i') (mkFenceBlock_concat t' i')
    isWsChar_tick isWsChar_tick u v

/-! ### Facade and tool-loop lemmas -/

lemma runTools_eq (tools : List (Str × MCPToolTS)) (prompt : Str) :
    ∀ names : List Str,
    CRAITE.runTools tools prompt names =
      .ok (names.filter fun n =>
             match mapGet tools n with
             | some t => (t.execute [(("query").toList, prompt)]).isSome
             | none => false,
           names.filterMap fun n =>
             (mapGet tools n).bind fun t => t.execute [(("query").toList, prompt)]) := by
  intro names
  induction names with
  | nil => simp [CRAITE.runTools]
  | cons n rest ih =>
    cases hmg : mapGet tools n with
    | none =>
      simp [CRAITE.runTools, hmg, ih, List.filter_cons, List.filterMap_cons]
    | some tool =>
      simp only [CRAITE.runTools, CRAITE.useTool, hmg, ih, List.filter_cons,
        List.filterMap_cons, Option.some_bind]
      cases hex : tool.execute [(("query").toList, prompt)] with
      | none => simp [hex]
      | some r => simp [hex]

lemma toolsUsed_eq (cfg : CRAITEConfig) (tools : List (Str × MCPToolTS))
    (opts : GenerateOptions) (names : List Str) (content : Str) :
    Except.map GenerateResult.toolsUsed
      (CRAITE.generateWithTools cfg tools opts names content) =
      .ok (names.filter fun n =>
        match mapGet tools n with
        | some t => (t.execute [(("query").toList, opts.prompt)]).isSome
        | none => false) := by
  simp [CRAITE.generateWithTools, runTools_eq, Except.map]

lemma ozBuild_eq (tf : List Str) (ct : Str) : ∀ fs : List Str,
    ozBuild tf ct fs =
      ((fs.filter fun f => goContains tf f).map (ozFeatureImport ct),
       fs.filter fun f => goContains tf f) := by
  intro fs
  induction fs with
  | nil => simp [ozBuild]
  | cons f rest ih =>
    by_cases hg : goContains tf f = true
    · simp [ozBuild, ih, hg, List.filter_cons]
    · simp [ozBuild, ih, hg, List.filter_cons]

lemma clampIntScore (n : Nat) :
    (if (100 - 20 * (n : Int)) < 0 then 0 else 100 - 20 * (n : Int))
      = max 0 (100 - 20 * (n : Int)) := by
  by_cases h : (100 - 20 * (n : Int)) < 0
  · rw [if_pos h, max_eq_left (le_of_lt h)]
  · rw [if_neg h, max_eq_right (not_lt.1 h)]

/-! ### Claims -/

/-- Claim C1, counterexample: in `generateWithTools`, a registered tool whose
`execute` resolves to a result with `success = false` is nevertheless recorded
in `toolsUsed` (the loop only checks truthiness of the result, not its
`success` flag), contradicting the claim that `toolsUsed` contains only names
whose execution returned `success = true`. -/
theorem c1_counterexample :
    (failingAuditTool.execute [(("query").toList, ("p").toList)]).map
        ToolResultTS.success = some false ∧
    Except.map GenerateResult.toolsUsed
      (CRAITE.generateWithTools cfgDefault [(("audit").toList, failingAuditTool)]
        optsPlain [("audit").toList] (("x").toList))
      = .ok [("audit").toList] := by
  constructor
  · rfl
  · rw [toolsUsed_eq]
    rfl

/-- Claim C1, amended: `toolsUsed` of a `generateWithTools` result contains
exactly the requested names that are registered and whose `execute` resolved
to a non-null result, in request order, regardless of the result's `success`
flag; the call itself always yields a result (never a thrown error). -/
theorem c1_amended_toolsUsed (cfg : CRAITEConfig) (tools : List (Str × MCPToolTS))
    (opts : GenerateOptions) (names : List Str) (content : Str) :
    Except.map GenerateResult.toolsUsed
      (CRAITE.generateWithTools cfg tools opts names content) =
      .ok (names.filter fun n =>
        match mapGet tools n with
        | some t => (t.execute [(("query").toList, opts.prompt)]).isSome
        | none => false) :=
  toolsUsed_eq cfg tools opts names content

/-- Claim C2, counterexample: the TypeScript facade's `useTool` throws
(`Except.error`) for an unregistered name instead of returning a failure
result, and the Go registry's failure message is `"Tool not found: <name>"`
(capital T), not the claimed exact form `"tool not found: <name>"`. -/
theorem c2_counterexample :
    CRAITE.useTool [] (("nonexistent").toList) [] =
      .error (("MCP tool not found: nonexistent").toList) ∧
    (MCPToolRegistry.Execute [] (("nonexistent").toList) []).error =
      ("Tool not found: nonexistent").toList ∧
    ("Tool not found: nonexistent").toList ≠ ("tool not found: nonexistent").toList := by
  refine ⟨rfl, rfl, by decide⟩

/-- Claim C2, amended: the Go registry's `Execute` on an unregistered name
returns `success = false` with error `"Tool not found: <name>"` (which
contains `"not found"`) and never fails the call; the TypeScript facade's
`useTool`, by contrast, throws an error `"MCP tool not found: <name>"` for an
unregistered name. -/
theorem c2_amended_unknown_tool :
    (∀ (registry : GoRegistry) (name : Str) (params : GoParams),
      MCPToolRegistry.Get registry name = none →
      (MCPToolRegistry.Execute registry name params).success = false ∧
      (MCPToolRegistry.Execute registry name params).error
        = ("Tool not found: ").toList ++ name ∧
      strContains (MCPToolRegistry.Execute registry name params).error
        (("not found").toList) = true) ∧
    (∀ (tools : List (Str × MCPToolTS)) (name : Str) (params : List (Str × Str)),
      mapGet tools name = none →
      CRAITE.useTool tools name params
        = .error ((("MCP tool not found: ").toList ++ name))) := by
  constructor
  · intro registry name params hget
    have hexec : MCPToolRegistry.Execute registry name params =
        { success := false, data := none
          error := ("Tool not found: ").toList ++ name } := by
      simp [MCPToolRegistry.Execute, hget]
    refine ⟨by rw [hexec], by rw [hexec], ?_⟩
    rw [hexec]
    show strContains (("Tool not found: ").toList ++ name) (("not found").toList) = true
    have hsplit : ("Tool not found: ").toList ++ name
        = ("Tool ").toList ++ (("not found").toList ++ ((": ").toList ++ name)) := by
      have hconcrete : ("Tool not found: ").toList
          = ("Tool ").toList ++ ("not found").toList ++ (": ").toList := by decide
      rw [hconcrete]
      simp [List.append_assoc]
    rw [hsplit]
    exact strContains_of_startsWith _ _ _ (startsWith_self_append _ _)
  · intro tools name params hget
    simp [CRAITE.useTool, hget]

/-- Claim C2, amended, witness at a concrete unregistered name. -/
theorem c2_amended_unknown_tool_witness :
    (MCPToolRegistry.Execute [] (("missing").toList) []).success = false ∧
    strContains (MCPToolRegistry.Execute [] (("missing").toList) []).error
      (("not found").toList) = true ∧
    CRAITE.useTool [] (("missing").toList) []
      = .error ((("MCP tool not found: ").toList ++ ("missing").toList)) := by
  refine ⟨(c2_amended_unknown_tool.1 [] (("missing").toList) [] rfl).1,
    (c2_amended_unknown_tool.1 [] (("missing").toList) [] rfl).2.2,
    c2_amended_unknown_tool.2 [] (("missing").toList) [] rfl⟩

set_option maxRecDepth 8000 in
/-- Claim C3, counterexample: with an unrecognized mode ("weird") the prompt
the pipeline sends upstream differs from the one it sends in production mode
(the facade layer appends no mode instruction instead of the production
instruction), so the pipeline does not behave as if the mode were
`production`. -/
theorem c3_counterexample :
    CRAITE.outboundPrompt cfgDefault
        { prompt := ("p").toList, language := none, mode := some (("weird").toList) } ≠
      CRAITE.outboundPrompt cfgDefault
        { prompt := ("p").toList, language := none, mode := some (("production").toList) } := by
  decide

/-- Claim C3, amended: an unrecognized non-empty mode yields the same
`GenerateResult` as production (explanation cleared) and the same
provider-level instruction, but the facade's mode-enhancement layer appends no
instruction at all (rather than the production instruction), so the composed
outbound prompt differs from production's. -/
theorem c3_amended_mode_fallback (cfg : CRAITEConfig) (prompt : Str)
    (lang : Option Str) (content : Str) (m : Str)
    (h1 : m ≠ ("production").toList) (h2 : m ≠ ("educational").toList)
    (h3 : m ≠ []) :
    CRAITE.generate cfg { prompt := prompt, language := lang, mode := some m } content
      = CRAITE.generate cfg
          { prompt := prompt, language := lang, mode := some (("production").toList) } content
    ∧ CRAITE.enhancePromptWithMode prompt m = ("\n\n").toList ++ prompt
    ∧ ∀ q : Str, formatPrompt q m = formatPrompt q (("production").toList) := by
  have hpe : (("production").toList : Str) ≠ ("educational").toList := by decide
  have hpn : (("production").toList : Str) ≠ [] := by decide
  have h1' : m ≠ ['p', 'r', 'o', 'd', 'u', 'c', 't', 'i', 'o', 'n'] := h1
  have h2' : m ≠ ['e', 'd', 'u', 'c', 'a', 't', 'i', 'o', 'n', 'a', 'l'] := h2
  refine ⟨?_, ?_, ?_⟩
  · simp [CRAITE.generate, CRAITE.resolveMode, jsOrStr, h2', h3, hpe, hpn]
  · simp [CRAITE.enhancePromptWithMode, modeInstructionsLookup, h1', h2']
  · intro q
    simp [formatPrompt, h2', hpe]

/-- Claim C3, amended, witness at the concrete unrecognized mode "weird". -/
theorem c3_amended_mode_fallback_witness :
    CRAITE.generate cfgDefault
        { prompt := ("p").toList, language := none, mode := some (("weird").toList) }
        (("out").toList)
      = CRAITE.generate cfgDefault
          { prompt := ("p").toList, language := none, mode := some (("production").toList) }
          (("out").toList)
    ∧ CRAITE.enhancePromptWithMode (("p").toList) (("weird").toList)
        = ("\n\n").toList ++ ("p").toList := by
  have h := c3_amended_mode_fallback cfgDefault (("p").toList) none (("out").toList)
    (("weird").toList) (by decide) (by decide) (by decide)
  exact ⟨h.1, h.2.1⟩

set_option maxRecDepth 8000 in
/-- Claim C4, counterexample: the provider-level `formatPrompt` with the
unrecognized mode "weird" is not the composition with the mode instruction
omitted — it contains the production instruction. -/
theorem c4_counterexample :
    formatPrompt (("p").toList) (("weird").toList)
      ≠ formatPromptOmittedInstr (("p").toList) := by
  decide

/-- Claim C4, amended: for a mode outside the two recognized values, the
facade's `enhancePromptWithMode` composes with the instruction omitted (empty
instruction) and throws nothing, but the provider's `formatPrompt` instead
falls back to the production instruction (identical to production mode, with
the production instruction present in the output). -/
theorem c4_amended_compose_fallback (m p : Str)
    (h1 : m ≠ ("production").toList) (h2 : m ≠ ("educational").toList) :
    CRAITE.enhancePromptWithMode p m = ([] : Str) ++ ("\n\n").toList ++ p
    ∧ formatPrompt p m = formatPrompt p (("production").toList)
    ∧ strContains (formatPrompt p m) providerProductionInstr = true := by
  have hpe : (("production").toList : Str) ≠ ("educational").toList := by decide
  have h1' : m ≠ ['p', 'r', 'o', 'd', 'u', 'c', 't', 'i', 'o', 'n'] := h1
  have h2' : m ≠ ['e', 'd', 'u', 'c', 'a', 't', 'i', 'o', 'n', 'a', 'l'] := h2
  refine ⟨?_, ?_, ?_⟩
  · simp [CRAITE.enhancePromptWithMode, modeInstructionsLookup, h1', h2']
  · simp [formatPrompt, h2', hpe]
  · simp only [formatPrompt, if_neg h2]
    have hshape : buildSystemPrompt ++ ("\n\n").toList ++ providerProductionInstr
        ++ ("\n\nUser request: ").toList ++ p
        = (buildSystemPrompt ++ ("\n\n").toList)
          ++ (providerProductionInstr ++ ((("\n\nUser request: ").toList) ++ p)) := by
      simp [List.append_assoc]
    rw [hshape]
    exact strContains_of_startsWith _ _ _ (startsWith_self_append _ _)

/-- Claim C4, amended, witness at the concrete unrecognized mode "weird". -/
theorem c4_amended_compose_fallback_witness :
    CRAITE.enhancePromptWithMode (("p").toList) (("weird").toList)
        = ([] : Str) ++ ("\n\n").toList ++ ("p").toList
    ∧ formatPrompt (("p").toList) (("weird").toList)
        = formatPrompt (("p").toList) (("production").toList) := by
  have h := c4_amended_compose_fallback (("weird").toList) (("p").toList)
    (by decide) (by decide)
  exact ⟨h.1, h.2.1⟩

/-- Claim C5: when the fence regex finds no block, the whole raw text is the
code and the explanation is absent; when it finds a first block, the code is
that block's interior and the explanation is the raw text with the matched
block removed and trimmed (absent when empty), and any later fenced block in
the remainder appears verbatim inside the explanation. -/
theorem c5_extract_first_block (raw : Str) :
    (findFence raw = none →
      extractCodeFromResponse raw = { code := raw, explanation := none }) ∧
    (∀ p t i post, findFence raw = some (p, t, i, post) →
      extractCodeFromResponse raw =
        { code := i
          explanation := if trim (p ++ post) = [] then none
                         else some (trim (p ++ post)) } ∧
      ∀ t' i' u v, post = u ++ mkFenceBlock t' i' ++ v →
        ∃ u' v', extractCodeFromResponse raw =
          { code := i, explanation := some (u' ++ mkFenceBlock t' i' ++ v') }) := by
  constructor
  · exact extract_notfound raw
  · intro p t i post h
    refine ⟨extract_found raw p t i post h, ?_⟩
    intro t' i' u v hpost
    have hsplit : p ++ post = (p ++ u) ++ mkFenceBlock t' i' ++ v := by
      rw [hpost]
      simp [List.append_assoc]
    obtain ⟨u', v', htr⟩ := trim_keeps_fence t' i' (p ++ u) v
    have htrim : trim (p ++ post) = u' ++ mkFenceBlock t' i' ++ v' := by
      rw [hsplit]
      exact htr
    have hne : trim (p ++ post) ≠ [] := by
      rw [htrim, mkFenceBlock_cons]
      simp
    refine ⟨u', v', ?_⟩
    rw [extract_found raw p t i post h, if_neg hne, htrim]

/-- Claim C5, witness: a response with two fenced blocks and prose. -/
theorem c5_extract_first_block_witness :
    extractCodeFromResponse
        (("```js\nfirst\n```\nmiddle\n```py\nsecond\n```\ntail").toList)
      = { code := ("first").toList
          explanation := some (("middle\n```py\nsecond\n```\ntail").toList) } ∧
    ∃ u' v', extractCodeFromResponse
        (("```js\nfirst\n```\nmiddle\n```py\nsecond\n```\ntail").toList)
      = { code := ("first").toList
          explanation := some (u' ++ mkFenceBlock (("py").toList) (("second").toList) ++ v') } := by
  have h := (c5_extract_first_block
      (("```js\nfirst\n```\nmiddle\n```py\nsecond\n```\ntail").toList)).2
    [] (("js").toList) (("first").toList)
    (("\nmiddle\n```py\nsecond\n```\ntail").toList) (by decide)
  refine ⟨h.1.trans (by decide), ?_⟩
  obtain ⟨u', v', he⟩ := h.2 (("py").toList) (("second").toList)
    (("\nmiddle\n").toList) (("\ntail").toList) (by decide)
  exact ⟨u', v', he⟩

/-- Claim C6: on solidity code whose only trigger substring is
`.call{value:`, the security audit yields exactly the reentrancy finding
(severity high) with score 80; on code with no trigger substring it yields no
findings and score 100; in general the tool succeeds and its score is
`max 0 (100 - 20 * findingCount)`. -/
theorem c6_security_audit_scoring :
    (∀ code : Str,
      strContains code ((".call\x7bvalue:").toList) = true →
      strContains code (("call.value").toList) = false →
      strContains code (("tx.origin").toList) = false →
      strContains code (("block.timestamp").toList) = false →
      strContains code (("delegatecall").toList) = false →
      SecurityAuditTool.Execute [(("code").toList, .str code)] =
        { success := true
          data := some (.auditData [reentrancyIssue] 80
            [("Use checks-effects-interactions pattern or ReentrancyGuard").toList])
          error := [] }) ∧
    (∀ code : Str,
      strContains code ((".call\x7bvalue:").toList) = false →
      strContains code (("call.value").toList) = false →
      strContains code (("tx.origin").toList) = false →
      strContains code (("block.timestamp").toList) = false →
      strContains code (("delegatecall").toList) = false →
      SecurityAuditTool.Execute [(("code").toList, .str code)] =
        { success := true, data := some (.auditData [] 100 []), error := [] }) ∧
    (∀ params : GoParams, ∃ issues : List SecurityIssue,
      SecurityAuditTool.Execute params =
        { success := true
          data := some (.auditData issues (max 0 (100 - 20 * issues.length))
            (getSecurityRecommendations issues))
          error := [] }) := by
  have hkey : ((("code").toList : Str) = ("language").toList) = False := by decide
  have hc : ∀ code : Str,
      getStr [(("code").toList, GoVal.str code)] (("code").toList) = code := by
    intro code
    simp [getStr, lookupVal]
  have hlang : ∀ code : Str,
      getStr [(("code").toList, GoVal.str code)] (("language").toList) = [] := by
    intro code
    simp [getStr, lookupVal, hkey]
  refine ⟨?_, ?_, ?_⟩
  · intro code h1 h2 h3 h4 h5
    simp only [SecurityAuditTool.Execute, hc, hlang, if_true]
    simp only [auditIssues, h1, h2, h3, h4, h5]
    decide
  · intro code h1 h2 h3 h4 h5
    simp only [SecurityAuditTool.Execute, hc, hlang, if_true]
    simp only [auditIssues, h1, h2, h3, h4, h5]
    decide
  · intro params
    refine ⟨auditIssues (getStr params (("code").toList))
      (if getStr params (("language").toList) = [] then ("solidity").toList
       else getStr params (("language").toList)), ?_⟩
    simp only [SecurityAuditTool.Execute, clampIntScore]

/-- Claim C6, witness: a reentrancy-only snippet and a clean snippet. -/
theorem c6_security_audit_scoring_witness :
    SecurityAuditTool.Execute
        [(("code").toList, .str (("x.call\x7bvalue: 1\x7d(\"\")").toList))] =
      { success := true
        data := some (.auditData [reentrancyIssue] 80
          [("Use checks-effects-interactions pattern or ReentrancyGuard").toList])
        error := [] } ∧
    SecurityAuditTool.Execute
        [(("code").toList, .str (("contract C \x7b\x7d").toList))] =
      { success := true, data := some (.auditData [] 100 []), error := [] } :=
  ⟨c6_security_audit_scoring.1 _ (by decide) (by decide) (by decide) (by decide)
      (by decide),
   c6_security_audit_scoring.2.1 _ (by decide) (by decide) (by decide) (by decide)
      (by decide)⟩

/-- Claim C7: with mode educational and an adapter response holding a fenced
block plus non-empty trailing prose, `generate` returns a present explanation
(the trimmed remainder); with mode production the explanation is absent
whatever the adapter returned. -/
theorem c7_explanation_gating (cfg : CRAITEConfig) (prompt : Str)
    (lang : Option Str) (content p t i post : Str)
    (hf : findFence content = some (p, t, i, post))
    (hne : trim (p ++ post) ≠ []) :
    (CRAITE.generate cfg
        { prompt := prompt, language := lang, mode := some (("educational").toList) }
        content).explanation = some (trim (p ++ post)) ∧
    ∀ content' : Str,
      (CRAITE.generate cfg
        { prompt := prompt, language := lang, mode := some (("production").toList) }
        content').explanation = none := by
  constructor
  · have hext := extract_found content p t i post hf
    simp [CRAITE.generate, CRAITE.resolveMode, jsOrStr, hext, hne]
  · intro content'
    simp [CRAITE.generate, CRAITE.resolveMode, jsOrStr]

/-- Claim C7, witness at a concrete two-part adapter response. -/
theorem c7_explanation_gating_witness :
    (CRAITE.generate cfgDefault
        { prompt := ("p").toList, language := none, mode := some (("educational").toList) }
        (("```\ncode\n```\nwhy").toList)).explanation = some (("why").toList) ∧
    (CRAITE.generate cfgDefault
        { prompt := ("p").toList, language := none, mode := some (("production").toList) }
        (("```\ncode\n```\nwhy").toList)).explanation = none := by
  have h := c7_explanation_gating cfgDefault (("p").toList) none
    (("```\ncode\n```\nwhy").toList) [] [] (("code").toList) (("\nwhy").toList)
    (by decide) (by decide)
  exact ⟨h.1.trans (by decide), h.2 (("```\ncode\n```\nwhy").toList)⟩

/-- Claim C8: a `generateWithTools` call mixing one registered name (whose
execute resolves to a result) and one unregistered name yields `toolsUsed`
containing only the registered name, and the call succeeds (returns a result
rather than an error), in either request order. -/
theorem c8_mixed_tools (cfg : CRAITEConfig) (tools : List (Str × MCPToolTS))
    (opts : GenerateOptions) (content : Str) (valid invalid : Str)
    (tool : MCPToolTS) (r : ToolResultTS)
    (hv : mapGet tools valid = some tool)
    (hr : tool.execute [(("query").toList, opts.prompt)] = some r)
    (hi : mapGet tools invalid = none) :
    Except.map GenerateResult.toolsUsed
      (CRAITE.generateWithTools cfg tools opts [valid, invalid] content)
      = .ok [valid] ∧
    Except.map GenerateResult.toolsUsed
      (CRAITE.generateWithTools cfg tools opts [invalid, valid] content)
      = .ok [valid] := by
  constructor
  · rw [toolsUsed_eq]
    simp only [List.filter, hv, hr, hi, Option.isSome]
  · rw [toolsUsed_eq]
    simp only [List.filter, hv, hr, hi, Option.isSome]

/-- Claim C8, witness: a concrete registry with one good tool, requesting it
together with a missing name in both orders. -/
theorem c8_mixed_tools_witness :
    Except.map GenerateResult.toolsUsed
      (CRAITE.generateWithTools cfgDefault [(("oz").toList, okTemplateTool)]
        optsPlain [("oz").toList, ("missing").toList] (("x").toList))
      = .ok [("oz").toList] ∧
    Except.map GenerateResult.toolsUsed
      (CRAITE.generateWithTools cfgDefault [(("oz").toList, okTemplateTool)]
        optsPlain [("missing").toList, ("oz").toList] (("x").toList))
      = .ok [("oz").toList] :=
  c8_mixed_tools cfgDefault [(("oz").toList, okTemplateTool)] optsPlain
    (("x").toList) (("oz").toList) (("missing").toList) okTemplateTool
    { tool := some (("oz").toList), success := true,
      data := ("\x7b\x7d").toList, error := none }
    rfl rfl rfl

/-- Claim C9: when the `contract_type` parameter is absent, the empty string,
or not a string, the OpenZeppelin tool silently defaults to ERC20 and returns
a success result carrying the ERC20 template (with the recognized requested
features and their imports), not an unknown-kind failure. -/
theorem c9_oz_default_erc20 (params : GoParams)
    (h : lookupVal params (("contract_type").toList) = none
       ∨ lookupVal params (("contract_type").toList) = some (.str [])
       ∨ lookupVal params (("contract_type").toList) = some .other
       ∨ ∃ l, lookupVal params (("contract_type").toList) = some (.strList l)) :
    OpenZeppelinTool.Execute params =
      { success := true
        data := some (.ozData (("ERC20").toList)
          (ozBaseImport erc20Template.base ::
            ((getStrList params (("features").toList)).filter
              (fun f => goContains erc20Template.features f)).map
              (ozFeatureImport (("ERC20").toList)))
          ((getStrList params (("features").toList)).filter
            (fun f => goContains erc20Template.features f))
          erc20Template.template (ozDocUrl (("ERC20").toList)))
        error := [] } := by
  have hct : getStr params (("contract_type").toList) = [] := by
    rcases h with h | h | h | ⟨l, h⟩ <;> simp only [getStr, h]
  have hoz : ozContracts (("ERC20").toList) = some erc20Template := by
    simp [ozContracts]
  simp only [OpenZeppelinTool.Execute, hct, if_true, hoz, ozBuild_eq]

/-- Claim C9, witness: an empty parameter map (contract_type absent). -/
theorem c9_oz_default_erc20_witness :
    OpenZeppelinTool.Execute [] =
      { success := true
        data := some (.ozData (("ERC20").toList)
          [ozBaseImport erc20Template.base] []
          erc20Template.template (ozDocUrl (("ERC20").toList)))
        error := [] } := by
  have h := c9_oz_default_erc20 [] (Or.inl rfl)
  refine h.trans ?_
  simp [getStrList, lookupVal]

/-- Claim C10: when the `language` parameter is present and non-empty and is
not "solidity", the security audit succeeds with an empty issue list and a
score of exactly 100, whatever trigger substrings the code contains. -/
theorem c10_audit_non_solidity (params : GoParams) (lang : Str)
    (hl : lookupVal params (("language").toList) = some (.str lang))
    (hne : lang ≠ []) (hsol : lang ≠ ("solidity").toList) :
    SecurityAuditTool.Execute params =
      { success := true, data := some (.auditData [] 100 []), error := [] } := by
  have hg : getStr params (("language").toList) = lang := by
    simp only [getStr, hl]
  simp only [SecurityAuditTool.Execute, hg]
  rw [if_neg hne]
  simp only [auditIssues]
  rw [if_neg hsol]
  decide

/-- Claim C10, witness: vyper code full of solidity trigger substrings. -/
theorem c10_audit_non_solidity_witness :
    SecurityAuditTool.Execute
        [(("language").toList, .str (("vyper").toList)),
         (("code").toList, .str (("tx.origin delegatecall block.timestamp").toList))] =
      { success := true, data := some (.auditData [] 100 []), error := [] } :=
  c10_audit_non_solidity _ (("vyper").toList) (by decide) (by decide) (by decide)

end Craite
